import Mathlib

/-!
Shallow embedding of the inventory-ledger and FIFO-dispensing engine of the
pharmacy point-of-sale system (`base/models.py`, `base/views.py`), together
with proofs of the specification's claims about it.

The batch table of the database is modelled as a `List StockBatch`; the list
order carries no meaning (a table is a set of rows keyed by `id`), so all
statements about states are phrased through membership, permutation, or sums.
Quantities are natural numbers of pieces and boxes, dates are day ordinals,
money is exact rational arithmetic (Python `Decimal` arithmetic in this code
path is exact). Soft deletion (`SoftDeleteModel.delete`) sets `is_deleted`.
-/

/-- A product (`Medicine` in `base/models.py`): pack/box configuration.
`units_per_pack` and `packs_per_box` are non-negative and are clamped to 1
(`or 1` in Python) wherever they are used as factors. -/
structure Medicine where
  units_per_pack : Nat
  packs_per_box : Nat
  deriving DecidableEq, Repr

/-- Python's `x or 1` on a non-negative integer: 0 is falsy and becomes 1. -/
def orOne (n : Nat) : Nat := if n = 0 then 1 else n

/-- `StockBatch.pieces_per_box`: `(packs_per_box or 1) * (units_per_pack or 1)`. -/
def pieces_per_box (m : Medicine) : Nat := orOne m.packs_per_box * orOne m.units_per_pack

/-- One stock batch row (`StockBatch`): `quantity` full boxes plus
`loose_pieces` loose pieces, at a location (`"front"` = shelf,
`"back"` = stock room), with receipt/expiry dates and the soft-delete and
recall flags. -/
structure StockBatch where
  id : Nat
  quantity : Nat
  loose_pieces : Nat
  location : String
  date_received : Nat
  expiry_date : Nat
  is_deleted : Bool
  is_recalled : Bool
  deriving DecidableEq, Repr

/-- `StockBatch.total_pieces`: `quantity * pieces_per_box + loose_pieces`. -/
def StockBatch.total_pieces (b : StockBatch) (m : Medicine) : Nat :=
  b.quantity * pieces_per_box m + b.loose_pieces

/-- One movement-ledger row (`StockMovement`): immutable audit record of a
quantity change, in pieces, tagged with a reason. -/
structure StockMovement where
  batch_id : Nat
  from_location : String
  to_location : String
  quantity : Nat
  reason : String
  deriving DecidableEq, Repr

/-- The persistent state relevant to one product: its configuration, its
batch rows and the movement ledger (in chronological order of creation). -/
structure ProductState where
  med : Medicine
  batches : List StockBatch
  movements : List StockMovement
  deriving DecidableEq, Repr

/-- A batch is active when it is neither soft-deleted nor recalled
(the filter `is_deleted=False, is_recalled=False` used by every selection). -/
def isActive (b : StockBatch) : Bool := !b.is_deleted && !b.is_recalled

/-- Location precedence used by `StockBatch.dispense`'s annotated ordering:
`front` → 0, `back` → 1, anything else → 2. -/
def loc_order (loc : String) : Nat :=
  if loc = "front" then 0 else if loc = "back" then 1 else 2

/-- The two-key comparator of `StockBatch.dispense`:
`order_by("loc_order", "date_received")`. -/
def dispenseOrder (a b : StockBatch) : Prop :=
  loc_order a.location < loc_order b.location ∨
    (loc_order a.location = loc_order b.location ∧ a.date_received ≤ b.date_received)

instance : DecidableRel dispenseOrder := fun a b => by
  unfold dispenseOrder; exact inferInstance

instance : IsTotal StockBatch dispenseOrder :=
  ⟨by intro a b; unfold dispenseOrder; omega⟩

instance : IsTrans StockBatch dispenseOrder :=
  ⟨by intro a b c; unfold dispenseOrder; omega⟩

/-- Pure chronological ordering `order_by("date_received")`, used by
`fifo_transfer` and by the oldest-backroom-batch queries. -/
def dateOrder (a b : StockBatch) : Prop := a.date_received ≤ b.date_received

instance : DecidableRel dateOrder := fun a b => by
  unfold dateOrder; exact inferInstance

instance : IsTotal StockBatch dateOrder := ⟨by intro a b; unfold dateOrder; omega⟩

instance : IsTrans StockBatch dateOrder := ⟨by intro a b c; unfold dateOrder; omega⟩

/-- The batch queryset of `StockBatch.dispense`: active batches of the
product ordered by location precedence then receipt date. -/
def sortActiveBatches (s : ProductState) : List StockBatch :=
  List.insertionSort dispenseOrder (s.batches.filter isActive)

/-- The batch queryset of `fifo_transfer`: active batches ordered by
`date_received` only. -/
def sortActiveByDate (s : ProductState) : List StockBatch :=
  List.insertionSort dateOrder (s.batches.filter isActive)

/-- The consumption walk of `StockBatch.dispense`: for each batch in order,
while pieces are still needed, consume the whole batch (soft-deleting it) if
it holds at most the remainder, else consume exactly the remainder and
recompute the box/loose split by floor-division and modulo. Returns the
updated batches, the `sale` movement rows created, and the unmet remainder. -/
def consumeBatches (ppb : Nat) : List StockBatch → Nat → List StockBatch × List StockMovement × Nat
  | [], needed => ([], [], needed)
  | b :: rest, needed =>
    if needed = 0 then (b :: rest, [], 0)
    else
      let t := b.quantity * ppb + b.loose_pieces
      if t ≤ needed then
        let out := consumeBatches ppb rest (needed - t)
        ({ b with is_deleted := true } :: out.1,
          { batch_id := b.id, from_location := b.location, to_location := "",
            quantity := t, reason := "sale" } :: out.2.1,
          out.2.2)
      else
        ({ b with quantity := (t - needed) / ppb, loose_pieces := (t - needed) % ppb } :: rest,
          [{ batch_id := b.id, from_location := b.location, to_location := "",
             quantity := needed, reason := "sale" }],
          0)

/-- Replace the first row whose primary key is `i` (a row update; primary
keys are unique in the database). -/
def replaceFirstById (i : Nat) (f : StockBatch → StockBatch) : List StockBatch → List StockBatch
  | [] => []
  | b :: rest => if b.id = i then f b :: rest else b :: replaceFirstById i f rest

/-- The oldest active backroom batch
(`filter(..., location='back').order_by('date_received').first()`). -/
def oldestBackBatch (bs : List StockBatch) : Option StockBatch :=
  (List.insertionSort dateOrder
    (bs.filter (fun b => isActive b && b.location == "back"))).head?

/-- Auto-promotion at the end of `StockBatch.dispense`: if no active front
batch remains but an active back batch exists, move the oldest back batch to
the front in its entirety and log a `transfer` movement for its full piece
count (loose pieces included, via `total_pieces`). -/
def auto_promote (med : Medicine) (bs : List StockBatch) : List StockBatch × List StockMovement :=
  if bs.any (fun b => isActive b && b.location == "front") then (bs, [])
  else
    match oldestBackBatch bs with
    | none => (bs, [])
    | some b0 =>
      (replaceFirstById b0.id (fun b => { b with location := "front" }) bs,
        [{ batch_id := b0.id, from_location := "back", to_location := "front",
           quantity := b0.total_pieces med, reason := "transfer" }])

/-- The consumption phase of `StockBatch.dispense` (everything before
auto-promotion), with the request already expressed in pieces
(`unit_type='piece'`, as the dispensing workflow calls it). -/
def dispense_consume (s : ProductState) (pieces_needed : Nat) :
    List StockBatch × List StockMovement × Nat :=
  let out := consumeBatches (pieces_per_box s.med) (sortActiveBatches s) pieces_needed
  (out.1 ++ s.batches.filter (fun b => !(isActive b)), out.2.1, out.2.2)

/-- `StockBatch.dispense(medicine_id, pieces_needed, unit_type='piece')`:
consumption walk followed by auto-promotion; returns the new state and the
shortfall (`pieces_needed` still unmet). -/
def dispense (s : ProductState) (pieces_needed : Nat) : ProductState × Nat :=
  let c := dispense_consume s pieces_needed
  let promoted := auto_promote s.med c.1
  ({ s with batches := promoted.1, movements := s.movements ++ c.2.1 ++ promoted.2 }, c.2.2)

/-- Total pieces available across the product's active batches. -/
def availablePieces (s : ProductState) : Nat :=
  ((s.batches.filter isActive).map (fun b => b.total_pieces s.med)).sum

/-- The consumption walk of `fifo_transfer` (`base/views.py`). It differs
from dispensing in two ways visible in the source: a batch's size is taken
as `quantity * (packs_per_box or 1) * (units_per_pack or 1)` with
`loose_pieces` left out, and the partial branch sets
`quantity = remaining // pieces_per_box` without touching `loose_pieces`. -/
def transferLoop (ppb : Nat) (destination : String) :
    List StockBatch → Nat → List StockBatch × List StockMovement × Nat
  | [], needed => ([], [], needed)
  | b :: rest, needed =>
    if needed = 0 then (b :: rest, [], 0)
    else
      let t := b.quantity * ppb
      if t ≤ needed then
        let out := transferLoop ppb destination rest (needed - t)
        ({ b with is_deleted := true } :: out.1,
          { batch_id := b.id, from_location := b.location, to_location := destination,
            quantity := t, reason := "transfer" } :: out.2.1,
          out.2.2)
      else
        ({ b with quantity := (t - needed) / ppb } :: rest,
          [{ batch_id := b.id, from_location := b.location, to_location := destination,
             quantity := needed, reason := "transfer" }],
          0)

/-- `fifo_transfer(medicine_id, pieces_needed, user, destination)`: walks the
active batches in pure `date_received` order and consumes them, returning the
new state and the unmet remainder. -/
def fifo_transfer (s : ProductState) (pieces_needed : Nat) (destination : String) :
    ProductState × Nat :=
  let out := transferLoop (pieces_per_box s.med) destination (sortActiveByDate s) pieces_needed
  ({ s with
      batches := out.1 ++ s.batches.filter (fun b => !(isActive b))
      movements := s.movements ++ out.2.1 }, out.2.2)

/-- One step of the inventory reversal in `RefundCreateView.form_valid`: for
a sale movement with positive quantity whose batch row still exists, the code
executes `m.batch.quantity += m.quantity` (the movement's piece quantity is
added to the batch's full-box count, with no box/loose recomputation) and
logs a `returned` movement to the batch's location. -/
def refundStep (s : ProductState) (m : StockMovement) : ProductState × Nat :=
  if 0 < m.quantity then
    match s.batches.find? (fun b => b.id == m.batch_id) with
    | none => (s, 0)
    | some b =>
      ({ s with
          batches := replaceFirstById m.batch_id
            (fun x => { x with quantity := x.quantity + m.quantity }) s.batches
          movements := s.movements ++
            [{ batch_id := b.id, from_location := "", to_location := b.location,
               quantity := m.quantity, reason := "returned" }] },
        m.quantity)
  else (s, 0)

/-- The full inventory reversal of `RefundCreateView.form_valid`: iterate the
sale's movements, restore each, and report the total quantity restored. -/
def refund_restore (s : ProductState) : List StockMovement → ProductState × Nat
  | [] => (s, 0)
  | m :: rest =>
    let st := refundStep s m
    let out := refund_restore st.1 rest
    (out.1, st.2 + out.2)

/-- Auto-promotion after a recall (`batch_recall_modal`): same shape as the
one in `dispense`, except that the logged quantity is
`quantity * (packs_per_box or 1) * (units_per_pack or 1)` without loose
pieces. -/
def auto_promote_recall (med : Medicine) (bs : List StockBatch) :
    List StockBatch × List StockMovement :=
  if bs.any (fun b => isActive b && b.location == "front") then (bs, [])
  else
    match oldestBackBatch bs with
    | none => (bs, [])
    | some b0 =>
      (replaceFirstById b0.id (fun b => { b with location := "front" }) bs,
        [{ batch_id := b0.id, from_location := "back", to_location := "front",
           quantity := b0.quantity * orOne med.packs_per_box * orOne med.units_per_pack,
           reason := "transfer" }])

/-- The row update of `batch_recall_modal`: `batch.quantity -= recall_quantity`
followed by `if batch.quantity <= 0: batch.is_recalled = True; batch.quantity = 0`. -/
def recallUpdate (recall_quantity : Nat) (b : StockBatch) : StockBatch :=
  let q2 := b.quantity - recall_quantity
  if q2 = 0 then { b with quantity := 0, is_recalled := true }
  else { b with quantity := q2 }

/-- `batch_recall_modal` (POST): look the batch up through the soft-delete
manager, reject a non-positive container count or one exceeding the batch's
full-box count with no mutation, otherwise log one `recall` movement for
`recall_quantity * packs_per_box * units_per_pack` pieces (unclamped, as in
the source), subtract the containers, mark the batch recalled when its box
count reaches zero, and run recall auto-promotion. Returns `none` on the
error paths and `some pieces_recalled` on success. -/
def batch_recall (s : ProductState) (batch_pk : Nat) (recall_quantity : Nat) :
    ProductState × Option Nat :=
  match (s.batches.filter (fun b => !b.is_deleted)).find? (fun b => b.id == batch_pk) with
  | none => (s, none)
  | some batch =>
    if recall_quantity = 0 then (s, none)
    else if batch.quantity < recall_quantity then (s, none)
    else
      let pieces_recalled := recall_quantity * s.med.packs_per_box * s.med.units_per_pack
      let bs1 := replaceFirstById batch.id (recallUpdate recall_quantity) s.batches
      let promoted := auto_promote_recall s.med bs1
      ({ s with
          batches := promoted.1
          movements := s.movements ++
            [{ batch_id := batch.id, from_location := batch.location, to_location := "",
               quantity := pieces_recalled, reason := "recall" }] ++ promoted.2 },
        some pieces_recalled)

/-- Eligibility test of the expiry sweep: `process_all_expired_batches`
selects through the soft-delete manager the batches with
`expiry_date <= today` and only processes those with `quantity > 0`
(full boxes; `mark_as_expired` re-checks the same condition). -/
def expireEligible (today : Nat) (b : StockBatch) : Bool :=
  !b.is_deleted && decide (b.expiry_date ≤ today) && decide (0 < b.quantity)

/-- `mark_as_expired` (the module-level function attached to `StockBatch`):
when `quantity > 0`, zero the box count (loose pieces are left as they are),
log one `expired` movement whose quantity is the box count, and soft-delete
the batch; otherwise do nothing. -/
def mark_as_expired (b : StockBatch) : StockBatch × List StockMovement :=
  if 0 < b.quantity then
    ({ b with quantity := 0, is_deleted := true },
      [{ batch_id := b.id, from_location := b.location, to_location := "",
         quantity := b.quantity, reason := "expired" }])
  else (b, [])

/-- `process_all_expired_batches()`: run `mark_as_expired` on every eligible
batch. The Python function returns `None`; the embedding returns only the
new state. -/
def process_all_expired_batches (s : ProductState) (today : Nat) : ProductState :=
  { s with
      batches := s.batches.map (fun b =>
        if expireEligible today b then (mark_as_expired b).1 else b)
      movements := s.movements ++
        (s.batches.filter (expireEligible today)).map (fun b =>
          { batch_id := b.id, from_location := b.location, to_location := "",
            quantity := b.quantity, reason := "expired" }) }

/-- A configured discount policy (`DiscountType`): a percentage rate and an
active flag. -/
structure DiscountType where
  discount_rate : Rat
  is_active : Bool
  deriving DecidableEq, Repr

/-- One sale line (`SaleLineItem`), after its `save` hook has computed
`line_total = pieces_dispensed * unit_price`. -/
structure SaleLineItem where
  pieces_dispensed : Nat
  unit_price : Rat
  line_total : Rat
  deriving DecidableEq, Repr

/-- The `save` hook of `SaleLineItem` for a quantity already in pieces:
stores the per-piece price and computes the line total. -/
def SaleLineItem.saveLine (pieces_dispensed : Nat) (unit_price : Rat) : SaleLineItem :=
  { pieces_dispensed := pieces_dispensed, unit_price := unit_price,
    line_total := pieces_dispensed * unit_price }

/-- A sale header (`Sale`): line items, the optionally assigned discount
policy, and the monetary fields computed by `apply_discount` and
`finalize_payment`. -/
structure Sale where
  sale_id : Nat
  line_items : List SaleLineItem
  discount_type_fk : Option DiscountType
  total_amount : Rat
  discount_rate : Rat
  discount_amount : Rat
  final_amount : Rat
  cash_received : Rat
  change_amount : Rat
  invoice_number : Option String
  deriving DecidableEq, Repr

/-- The discount rate `Sale.apply_discount` resolves: the assigned policy's
rate when that policy exists and is active, zero otherwise. -/
def saleEffectiveRate (s : Sale) : Rat :=
  match s.discount_type_fk with
  | some d => if d.is_active then d.discount_rate else 0
  | none => 0

/-- `Sale.apply_discount`: sum the line totals into `total_amount`, resolve
the rate, compute `discount_amount = total * rate / 100` when the rate is
positive (zero otherwise) and `final_amount = total - discount`. -/
def Sale.apply_discount (s : Sale) : Sale :=
  let subtotal := (s.line_items.map (fun l => l.line_total)).sum
  let rate := saleEffectiveRate s
  { s with
      total_amount := subtotal
      discount_rate := rate
      discount_amount := if 0 < rate then subtotal * rate / 100 else 0
      final_amount := subtotal - (if 0 < rate then subtotal * rate / 100 else 0) }

/-- The invoice number `finalize_payment` assigns: `INV-` followed by the
sale id zero-padded to six digits. -/
def invoiceNumberFor (saleId : Nat) : String :=
  let digits := toString saleId
  "INV-" ++ String.mk (List.replicate (6 - digits.length) '0') ++ digits

/-- `Sale.finalize_payment(cash_received)`: re-run `apply_discount` when
`final_amount` is still zero, record the cash tendered, compute the change as
`cash - final` when the cash covers the total and zero otherwise, and assign
an invoice number if none is set. -/
def Sale.finalize_payment (s : Sale) (cash_received : Rat) : Sale :=
  let s1 := if s.final_amount = 0 then s.apply_discount else s
  { s1 with
      cash_received := cash_received
      change_amount := if s1.final_amount ≤ cash_received
        then cash_received - s1.final_amount else 0
      invoice_number := match s1.invoice_number with
        | some inv => some inv
        | none => some (invoiceNumberFor s1.sale_id) }

/-! ### Concrete fixtures used by witnesses and counterexamples -/

/-- A product with one piece per pack and one pack per box (1 piece/box). -/
def wMed11 : Medicine := { units_per_pack := 1, packs_per_box := 1 }

/-- A product with 2 pieces per pack and 5 packs per box (10 pieces/box). -/
def wMed25 : Medicine := { units_per_pack := 2, packs_per_box := 5 }

/-- A single active shelf batch of 5 pieces. -/
def wBatch1 : StockBatch :=
  { id := 1, quantity := 5, loose_pieces := 0, location := "front", date_received := 1,
    expiry_date := 100, is_deleted := false, is_recalled := false }

/-- State with 5 pieces available in one shelf batch. -/
def wS1 : ProductState := { med := wMed11, batches := [wBatch1], movements := [] }

/-- A shelf batch of 10 pieces received later (day 5) than the backroom one. -/
def wB3f : StockBatch :=
  { id := 1, quantity := 10, loose_pieces := 0, location := "front", date_received := 5,
    expiry_date := 100, is_deleted := false, is_recalled := false }

/-- A backroom batch of 4 pieces received earlier (day 1). -/
def wB3b : StockBatch :=
  { id := 2, quantity := 4, loose_pieces := 0, location := "back", date_received := 1,
    expiry_date := 100, is_deleted := false, is_recalled := false }

/-- State with a later-received shelf batch and an earlier backroom batch. -/
def wS3 : ProductState := { med := wMed11, batches := [wB3f, wB3b], movements := [] }

/-- One full box of `wMed25` (10 pieces) on the shelf. -/
def wB4 : StockBatch :=
  { id := 1, quantity := 1, loose_pieces := 0, location := "front", date_received := 1,
    expiry_date := 100, is_deleted := false, is_recalled := false }

/-- State for the refund round-trip scenario: 10 pieces in one shelf batch. -/
def wS4 : ProductState := { med := wMed25, batches := [wB4], movements := [] }

/-- The sale movement the dispense of 3 pieces from `wS4` creates. -/
def wMv4 : StockMovement :=
  { batch_id := 1, from_location := "front", to_location := "", quantity := 3, reason := "sale" }

/-- A backroom batch received on day 1 (earlier than the shelf batch). -/
def wB5back : StockBatch :=
  { id := 1, quantity := 5, loose_pieces := 0, location := "back", date_received := 1,
    expiry_date := 100, is_deleted := false, is_recalled := false }

/-- A shelf batch received on day 2. -/
def wB5front : StockBatch :=
  { id := 2, quantity := 5, loose_pieces := 0, location := "front", date_received := 2,
    expiry_date := 100, is_deleted := false, is_recalled := false }

/-- State with an older backroom batch and a newer shelf batch. -/
def wS5 : ProductState := { med := wMed11, batches := [wB5back, wB5front], movements := [] }

/-- A shelf batch of 2 boxes and 3 loose pieces of `wMed25` (23 pieces). -/
def wB6 : StockBatch :=
  { id := 1, quantity := 2, loose_pieces := 3, location := "front", date_received := 1,
    expiry_date := 100, is_deleted := false, is_recalled := false }

/-- State for the transfer split-invariant scenario. -/
def wS6 : ProductState := { med := wMed25, batches := [wB6], movements := [] }

/-- The sole shelf batch (1 piece) for the auto-promotion scenario. -/
def wB7f : StockBatch :=
  { id := 1, quantity := 1, loose_pieces := 0, location := "front", date_received := 5,
    expiry_date := 100, is_deleted := false, is_recalled := false }

/-- The backroom batch (3 boxes + 1 loose = 4 pieces) for auto-promotion. -/
def wB7b : StockBatch :=
  { id := 2, quantity := 3, loose_pieces := 1, location := "back", date_received := 2,
    expiry_date := 100, is_deleted := false, is_recalled := false }

/-- State whose sole shelf batch is fully consumed by a 1-piece dispense. -/
def wS7 : ProductState := { med := wMed11, batches := [wB7f, wB7b], movements := [] }

/-- An expired batch holding only loose pieces (0 boxes, 5 loose). -/
def wB9 : StockBatch :=
  { id := 1, quantity := 0, loose_pieces := 5, location := "front", date_received := 1,
    expiry_date := 10, is_deleted := false, is_recalled := false }

/-- State for the expiry-sweep counterexample (today = 20 is past expiry). -/
def wS9 : ProductState := { med := wMed11, batches := [wB9], movements := [] }

/-- An expired batch with 2 boxes and 3 loose pieces of `wMed25`. -/
def wB9e : StockBatch :=
  { id := 1, quantity := 2, loose_pieces := 3, location := "front", date_received := 1,
    expiry_date := 10, is_deleted := false, is_recalled := false }

/-- State for the expiry-sweep witness. -/
def wS9e : ProductState := { med := wMed25, batches := [wB9e], movements := [] }

/-- A sale with two lines (10 and 5 pieces at 2.00) and no discount policy. -/
def wSale8 : Sale :=
  { sale_id := 7, line_items := [SaleLineItem.saveLine 10 2, SaleLineItem.saveLine 5 2],
    discount_type_fk := none, total_amount := 0, discount_rate := 0, discount_amount := 0,
    final_amount := 0, cash_received := 0, change_amount := 0, invoice_number := none }

/-- The same two-line sale with an active 20% discount policy assigned. -/
def wSale8d : Sale :=
  { wSale8 with discount_type_fk := some { discount_rate := 20, is_active := true } }

/-- The shelf batch for the recall witness: 4 boxes + 2 loose of `wMed25`. -/
def wB10 : StockBatch :=
  { id := 1, quantity := 4, loose_pieces := 2, location := "front", date_received := 1,
    expiry_date := 100, is_deleted := false, is_recalled := false }

/-- State for the recall witness. -/
def wS10 : ProductState := { med := wMed25, batches := [wB10], movements := [] }

/-! ### Helper lemmas about piece totals -/

/-- Sum of piece totals over a list of batch rows, for a fixed
pieces-per-box factor. -/
def sumTotal (ppb : Nat) (bs : List StockBatch) : Nat :=
  (bs.map (fun b => b.quantity * ppb + b.loose_pieces)).sum

/-- Sum of piece totals over the active batch rows. -/
def activeTotal (ppb : Nat) (bs : List StockBatch) : Nat :=
  sumTotal ppb (bs.filter isActive)

lemma availablePieces_eq (s : ProductState) :
    availablePieces s = activeTotal (pieces_per_box s.med) s.batches := rfl

lemma sumTotal_nil (ppb : Nat) : sumTotal ppb [] = 0 := rfl

lemma sumTotal_cons (ppb : Nat) (b : StockBatch) (bs : List StockBatch) :
    sumTotal ppb (b :: bs) = (b.quantity * ppb + b.loose_pieces) + sumTotal ppb bs := by
  simp [sumTotal]

lemma sumTotal_append (ppb : Nat) (l₁ l₂ : List StockBatch) :
    sumTotal ppb (l₁ ++ l₂) = sumTotal ppb l₁ + sumTotal ppb l₂ := by
  simp [sumTotal]

lemma sumTotal_perm (ppb : Nat) {l₁ l₂ : List StockBatch} (h : List.Perm l₁ l₂) :
    sumTotal ppb l₁ = sumTotal ppb l₂ :=
  (h.map _).sum_eq

lemma activeTotal_append (ppb : Nat) (l₁ l₂ : List StockBatch) :
    activeTotal ppb (l₁ ++ l₂) = activeTotal ppb l₁ + activeTotal ppb l₂ := by
  simp [activeTotal, List.filter_append, sumTotal_append]

lemma activeTotal_perm (ppb : Nat) {l₁ l₂ : List StockBatch} (h : List.Perm l₁ l₂) :
    activeTotal ppb l₁ = activeTotal ppb l₂ :=
  sumTotal_perm ppb (h.filter _)

lemma activeTotal_of_all_active (ppb : Nat) {bs : List StockBatch}
    (h : ∀ b ∈ bs, isActive b = true) : activeTotal ppb bs = sumTotal ppb bs := by
  unfold activeTotal
  rw [List.filter_eq_self.2 h]

lemma activeTotal_inactive_filter (ppb : Nat) (bs : List StockBatch) :
    activeTotal ppb (bs.filter (fun b => !(isActive b))) = 0 := by
  have h : (bs.filter (fun b => !(isActive b))).filter isActive = [] := by
    rw [List.filter_eq_nil_iff]
    intro a ha
    have h2 := List.of_mem_filter ha
    simp only [Bool.not_eq_true'] at h2
    simp [h2]
  unfold activeTotal sumTotal
  rw [h]
  rfl

/-! ### The consumption walk -/

lemma consumeBatches_shortfall (ppb : Nat) :
    ∀ (bs : List StockBatch) (needed : Nat),
      (consumeBatches ppb bs needed).2.2 = needed - sumTotal ppb bs := by
  intro bs
  induction bs with
  | nil => intro needed; simp [consumeBatches, sumTotal]
  | cons b rest ih =>
    intro needed
    by_cases h0 : needed = 0
    · simp [consumeBatches, h0]
    · by_cases hle : b.quantity * ppb + b.loose_pieces ≤ needed
      · simp only [consumeBatches, h0, if_false, hle, if_true]
        rw [ih]
        rw [sumTotal_cons]
        omega
      · simp only [consumeBatches, h0, if_false, hle, if_true]
        rw [sumTotal_cons]
        omega

lemma consumeBatches_activeTotal (ppb : Nat) :
    ∀ (bs : List StockBatch) (needed : Nat), (∀ b ∈ bs, isActive b = true) →
      activeTotal ppb ((consumeBatches ppb bs needed).1) =
        sumTotal ppb bs - min needed (sumTotal ppb bs) := by
  intro bs
  induction bs with
  | nil => intro needed _; simp [consumeBatches, sumTotal, activeTotal]
  | cons b rest ih =>
    intro needed hact
    have hb : isActive b = true := hact b (by simp)
    have hrest : ∀ x ∈ rest, isActive x = true := fun x hx => hact x (by simp [hx])
    by_cases h0 : needed = 0
    · simp only [consumeBatches, h0, if_true]
      rw [activeTotal_of_all_active ppb hact]
      omega
    · by_cases hle : b.quantity * ppb + b.loose_pieces ≤ needed
      · simp only [consumeBatches, h0, if_false, hle, if_true]
        have hdel : isActive ({ b with is_deleted := true } : StockBatch) = false := by
          simp [isActive]
        rw [show activeTotal ppb ({ b with is_deleted := true } ::
              (consumeBatches ppb rest (needed - (b.quantity * ppb + b.loose_pieces))).1) =
            activeTotal ppb ((consumeBatches ppb rest
              (needed - (b.quantity * ppb + b.loose_pieces))).1) by
          simp [activeTotal, List.filter_cons, hdel]]
        rw [ih _ hrest, sumTotal_cons]
        omega
      · simp only [consumeBatches, h0, if_false, hle, if_true]
        have hmut : isActive ({ b with
            quantity := (b.quantity * ppb + b.loose_pieces - needed) / ppb,
            loose_pieces := (b.quantity * ppb + b.loose_pieces - needed) % ppb } : StockBatch)
            = true := hb
        rw [show activeTotal ppb ({ b with
              quantity := (b.quantity * ppb + b.loose_pieces - needed) / ppb,
              loose_pieces := (b.quantity * ppb + b.loose_pieces - needed) % ppb } :: rest) =
            ((b.quantity * ppb + b.loose_pieces - needed) / ppb * ppb +
              (b.quantity * ppb + b.loose_pieces - needed) % ppb) + activeTotal ppb rest by
          simp [activeTotal, List.filter_cons, hmut, sumTotal_cons]]
        rw [activeTotal_of_all_active ppb hrest, sumTotal_cons]
        have hdm : (b.quantity * ppb + b.loose_pieces - needed) / ppb * ppb +
            (b.quantity * ppb + b.loose_pieces - needed) % ppb =
            b.quantity * ppb + b.loose_pieces - needed :=
          Nat.div_add_mod' _ ppb
        omega

lemma consumeBatches_ids (ppb : Nat) :
    ∀ (bs : List StockBatch) (needed : Nat),
      ((consumeBatches ppb bs needed).1.map (fun b => b.id)) = bs.map (fun b => b.id) := by
  intro bs
  induction bs with
  | nil => intro needed; simp [consumeBatches]
  | cons b rest ih =>
    intro needed
    by_cases h0 : needed = 0
    · simp [consumeBatches, h0]
    · by_cases hle : b.quantity * ppb + b.loose_pieces ≤ needed
      · simp only [consumeBatches, h0, if_false, hle, if_true, List.map_cons]
        rw [ih]
      · simp [consumeBatches, h0, hle]

/-! ### Auto-promotion preserves active piece totals -/

lemma activeTotal_cons (ppb : Nat) (b : StockBatch) (l : List StockBatch) :
    activeTotal ppb (b :: l) =
      (if isActive b then b.quantity * ppb + b.loose_pieces else 0) + activeTotal ppb l := by
  by_cases hb : isActive b
  · simp [activeTotal, sumTotal, List.filter_cons, hb]
  · simp only [Bool.not_eq_true] at hb
    simp [activeTotal, sumTotal, List.filter_cons, hb]

lemma replaceFirstById_location_activeTotal (ppb : Nat) (i : Nat) (loc : String) :
    ∀ bs : List StockBatch,
      activeTotal ppb (replaceFirstById i (fun b => { b with location := loc }) bs) =
        activeTotal ppb bs := by
  intro bs
  induction bs with
  | nil => rfl
  | cons b rest ih =>
    rw [replaceFirstById]
    by_cases hid : b.id = i
    · rw [if_pos hid, activeTotal_cons, activeTotal_cons]; rfl
    · rw [if_neg hid, activeTotal_cons, activeTotal_cons, ih]

lemma auto_promote_activeTotal (ppb : Nat) (med : Medicine) (bs : List StockBatch) :
    activeTotal ppb (auto_promote med bs).1 = activeTotal ppb bs := by
  unfold auto_promote
  by_cases h : bs.any (fun b => isActive b && b.location == "front")
  · simp [h]
  · simp only [h, if_false, Bool.false_eq_true]
    cases hfind : oldestBackBatch bs with
    | none => simp
    | some b0 => simp [replaceFirstById_location_activeTotal]

/-! ### The dispensing conservation law -/

lemma sortActiveBatches_perm (s : ProductState) :
    List.Perm (sortActiveBatches s) (s.batches.filter isActive) :=
  List.perm_insertionSort dispenseOrder _

lemma sortActiveBatches_all_active (s : ProductState) :
    ∀ b ∈ sortActiveBatches s, isActive b = true := by
  intro b hb
  have hmem := (sortActiveBatches_perm s).mem_iff.1 hb
  exact List.of_mem_filter hmem

lemma sortActiveBatches_sumTotal (s : ProductState) :
    sumTotal (pieces_per_box s.med) (sortActiveBatches s) = availablePieces s := by
  rw [availablePieces_eq]
  exact sumTotal_perm _ (sortActiveBatches_perm s)

lemma dispense_spec (s : ProductState) (N : Nat) :
    (dispense s N).2 = N - availablePieces s ∧
      availablePieces (dispense s N).1 = availablePieces s - min N (availablePieces s) := by
  constructor
  · show (consumeBatches (pieces_per_box s.med) (sortActiveBatches s) N).2.2 = _
    rw [consumeBatches_shortfall, sortActiveBatches_sumTotal]
  · show activeTotal (pieces_per_box s.med) (auto_promote s.med
      ((consumeBatches (pieces_per_box s.med) (sortActiveBatches s) N).1 ++
        s.batches.filter (fun b => !(isActive b)))).1 = _
    rw [auto_promote_activeTotal, activeTotal_append,
      consumeBatches_activeTotal _ _ _ (sortActiveBatches_all_active s),
      activeTotal_inactive_filter, sortActiveBatches_sumTotal, Nat.add_zero]

/-! ### Claim C1: dispensing with sufficient stock -/

/-- C1: for every product and every requested piece count `N ≥ 0`, if the
total pieces available across the product's active batches is at least `N`,
then `dispense` returns shortfall 0 and the sum of `total_pieces` over the
product's active batches decreases by exactly `N`. -/
theorem claim_C1_dispense_sufficient (s : ProductState) (N : Nat)
    (h : N ≤ availablePieces s) :
    (dispense s N).2 = 0 ∧ availablePieces (dispense s N).1 = availablePieces s - N := by
  obtain ⟨h1, h2⟩ := dispense_spec s N
  refine ⟨by omega, ?_⟩
  rw [h2]
  omega

/-- C1 witness: dispensing 3 of the 5 available pieces of `wS1`. -/
theorem claim_C1_witness :
    3 ≤ availablePieces wS1 ∧
      ((dispense wS1 3).2 = 0 ∧ availablePieces (dispense wS1 3).1 = availablePieces wS1 - 3) :=
  ⟨by decide, claim_C1_dispense_sufficient wS1 3 (by decide)⟩

/-! ### Claim C2: dispensing with insufficient stock -/

/-- C2 counterexample: requesting 7 pieces from the 5 available in `wS1`
returns the shortfall 2, but the batches are not left unchanged — the whole
stock is consumed (the active total drops to 0), so the state does not equal
a rolled-back state. -/
theorem claim_C2_counterexample :
    availablePieces wS1 < 7 ∧ (dispense wS1 7).2 = 7 - availablePieces wS1 ∧
      ¬((dispense wS1 7).1.batches = wS1.batches) ∧
      availablePieces (dispense wS1 7).1 = 0 := by decide

/-- C2 (amended): for every product and requested piece count strictly
greater than the total available, `dispense` returns a shortfall of
requested minus available, but the consumption is not rolled back: every
active batch is consumed (the active total drops to 0), and repeating the
failed call returns a shortfall equal to the full requested amount instead
of the same result. -/
theorem claim_C2_dispense_insufficient (s : ProductState) (N : Nat)
    (h : availablePieces s < N) :
    (dispense s N).2 = N - availablePieces s ∧
      availablePieces (dispense s N).1 = 0 ∧
      (dispense (dispense s N).1 N).2 = N := by
  obtain ⟨h1, h2⟩ := dispense_spec s N
  obtain ⟨h1', _⟩ := dispense_spec (dispense s N).1 N
  have hz : availablePieces (dispense s N).1 = 0 := by rw [h2]; omega
  refine ⟨h1, hz, ?_⟩
  rw [h1', hz]
  omega

/-- C2 witness: requesting 7 of the 5 available pieces of `wS1`. -/
theorem claim_C2_witness :
    availablePieces wS1 < 7 ∧
      ((dispense wS1 7).2 = 7 - availablePieces wS1 ∧
        availablePieces (dispense wS1 7).1 = 0 ∧
        (dispense (dispense wS1 7).1 7).2 = 7) :=
  ⟨by decide, claim_C2_dispense_insufficient wS1 7 (by decide)⟩

/-! ### Claim C3: shelf-priority FIFO consumption order -/

lemma loc_order_eq_zero {l : String} (h : loc_order l = 0) : l = "front" := by
  by_cases h1 : l = "front"
  · exact h1
  · by_cases h2 : l = "back" <;> simp [loc_order, h1, h2] at h

/-- C3: batches are consumed in the two-key order (shelf strictly before
backroom, ascending `date_received` within a location), and when the
product's only active shelf batch holds more pieces than the request, only
that shelf batch is mutated — every backroom batch, even one received
earlier, is left unchanged. -/
theorem claim_C3_shelf_priority_order (s : ProductState) (b : StockBatch) (N : Nat)
    (hb : b ∈ s.batches) (hact : isActive b = true) (hfront : b.location = "front")
    (huniq : ∀ b' ∈ s.batches, isActive b' = true → b'.location = "front" → b' = b)
    (hN : 0 < N) (hlt : N < b.total_pieces s.med) :
    List.Sorted dispenseOrder (sortActiveBatches s) ∧
      List.Perm (sortActiveBatches s) (s.batches.filter isActive) ∧
      (dispense s N).2 = 0 ∧
      List.Perm (dispense s N).1.batches
        ({ b with
            quantity := (b.total_pieces s.med - N) / pieces_per_box s.med,
            loose_pieces := (b.total_pieces s.med - N) % pieces_per_box s.med } ::
          s.batches.erase b) ∧
      (dispense s N).1.movements = s.movements ++
        [{ batch_id := b.id, from_location := b.location, to_location := "",
           quantity := N, reason := "sale" }] := by
  have hsorted : List.Sorted dispenseOrder (sortActiveBatches s) :=
    List.sorted_insertionSort dispenseOrder _
  have hperm := sortActiveBatches_perm s
  refine ⟨hsorted, hperm, ?_⟩
  have hbf : b ∈ s.batches.filter isActive := List.mem_filter_of_mem hb hact
  have hbL : b ∈ sortActiveBatches s := hperm.mem_iff.2 hbf
  cases hL : sortActiveBatches s with
  | nil =>
    rw [hL] at hbL
    simp at hbL
  | cons hd tl =>
    rw [hL] at hsorted hperm hbL
    have hhd : hd ∈ s.batches.filter isActive := hperm.mem_iff.1 (by simp)
    have hhdmem : hd ∈ s.batches := List.mem_of_mem_filter hhd
    have hhdact : isActive hd = true := List.of_mem_filter hhd
    have hhd_eq : hd = b := by
      by_contra hne
      have hbtl : b ∈ tl := by
        rcases List.mem_cons.1 hbL with h | h
        · exact absurd h.symm hne
        · exact h
      have hord : dispenseOrder hd b := List.rel_of_sorted_cons hsorted b hbtl
      have hhdloc : hd.location ≠ "front" := fun hf => hne (huniq hd hhdmem hhdact hf)
      unfold dispenseOrder at hord
      rw [hfront] at hord
      have h0 : loc_order "front" = 0 := rfl
      rw [h0] at hord
      rcases hord with hlt' | ⟨heq, _⟩
      · omega
      · exact hhdloc (loc_order_eq_zero heq)
    subst hhd_eq
    have hne0 : ¬ (N = 0) := by omega
    have hnle : ¬ (hd.quantity * pieces_per_box s.med + hd.loose_pieces ≤ N) := by
      unfold StockBatch.total_pieces at hlt
      omega
    have hcons : consumeBatches (pieces_per_box s.med) (hd :: tl) N =
        ({ hd with
            quantity := (hd.total_pieces s.med - N) / pieces_per_box s.med,
            loose_pieces := (hd.total_pieces s.med - N) % pieces_per_box s.med } :: tl,
          [{ batch_id := hd.id, from_location := hd.location, to_location := "",
             quantity := N, reason := "sale" }],
          0) := by
      simp [consumeBatches, hne0, hnle, StockBatch.total_pieces]
    have hmutact : isActive ({ hd with
        quantity := (hd.total_pieces s.med - N) / pieces_per_box s.med,
        loose_pieces := (hd.total_pieces s.med - N) % pieces_per_box s.med } : StockBatch)
        = true := hact
    have hany : (( { hd with
          quantity := (hd.total_pieces s.med - N) / pieces_per_box s.med,
          loose_pieces := (hd.total_pieces s.med - N) % pieces_per_box s.med } :: tl) ++
          s.batches.filter (fun x => !(isActive x))).any
          (fun x => isActive x && x.location == "front") = true := by
      apply List.any_eq_true.2
      refine ⟨_, List.mem_append_left _ (List.mem_cons_self _ _), ?_⟩
      rw [Bool.and_eq_true]
      constructor
      · exact hmutact
      · show (hd.location == "front") = true
        rw [hfront]
        rfl
    have hdisp : dispense s N =
        ({ s with
            batches := ({ hd with
                quantity := (hd.total_pieces s.med - N) / pieces_per_box s.med,
                loose_pieces := (hd.total_pieces s.med - N) % pieces_per_box s.med } :: tl) ++
              s.batches.filter (fun x => !(isActive x))
            movements := s.movements ++
              [{ batch_id := hd.id, from_location := hd.location, to_location := "",
                 quantity := N, reason := "sale" }] }, 0) := by
      unfold dispense dispense_consume
      rw [hL, hcons]
      dsimp only
      unfold auto_promote
      rw [if_pos hany]
      simp
    rw [hdisp]
    refine ⟨rfl, ?_, rfl⟩
    show List.Perm (_ :: (tl ++ s.batches.filter (fun x => !(isActive x)))) _
    apply List.Perm.cons
    have htail : List.Perm tl ((s.batches.filter isActive).erase hd) := by
      have h1 := hperm.erase hd
      rwa [List.erase_cons_head] at h1
    have hsplit : List.Perm (s.batches.erase hd)
        ((s.batches.filter isActive).erase hd ++ s.batches.filter (fun x => !(isActive x))) := by
      have h2 := (List.filter_append_perm isActive s.batches).symm
      have h3 := h2.erase hd
      rwa [List.erase_append_left _ hbf] at h3
    exact (htail.append_right _).trans hsplit.symm

/-- C3 witness: in `wS3` the only shelf batch (10 pieces, received day 5)
covers the request of 3; the earlier backroom batch (day 1) is untouched. -/
theorem claim_C3_witness :
    List.Sorted dispenseOrder (sortActiveBatches wS3) ∧
      List.Perm (sortActiveBatches wS3) (wS3.batches.filter isActive) ∧
      (dispense wS3 3).2 = 0 ∧
      List.Perm (dispense wS3 3).1.batches
        ({ wB3f with
            quantity := (wB3f.total_pieces wS3.med - 3) / pieces_per_box wS3.med,
            loose_pieces := (wB3f.total_pieces wS3.med - 3) % pieces_per_box wS3.med } ::
          wS3.batches.erase wB3f) ∧
      (dispense wS3 3).1.movements = wS3.movements ++
        [{ batch_id := wB3f.id, from_location := wB3f.location, to_location := "",
           quantity := 3, reason := "sale" }] :=
  claim_C3_shelf_priority_order wS3 wB3f 3 (by decide) (by decide) (by decide) (by decide)
    (by decide) (by decide)

/-! ### Claim C4: refund reversal as the inverse of a dispense -/

/-- C4: the code contradicts the claim. Dispensing 3 pieces from the
10-piece batch of `wS4` (10 pieces per box) leaves 0 boxes + 7 loose; the
refund reversal then executes `batch.quantity += movement.quantity`, adding
3 pieces to the box count (3 boxes + 7 loose = 37 pieces instead of 10), so
restoring and re-dispensing does not return the batch to its pre-sale
state. -/
theorem claim_C4_code_bug :
    wB4.total_pieces wS4.med = 10 ∧
      (dispense wS4 3).1.movements = [wMv4] ∧
      (dispense wS4 3).1.batches = [{ wB4 with quantity := 0, loose_pieces := 7 }] ∧
      (refund_restore (dispense wS4 3).1 [wMv4]).2 = 3 ∧
      (refund_restore (dispense wS4 3).1 [wMv4]).1.batches =
        [{ wB4 with quantity := 3, loose_pieces := 7 }] ∧
      ((refund_restore (dispense wS4 3).1 [wMv4]).1.batches.map
        (fun b => b.total_pieces wS4.med)) = [37] ∧
      (dispense (refund_restore (dispense wS4 3).1 [wMv4]).1 3).1.batches =
        [{ wB4 with quantity := 3, loose_pieces := 4 }] ∧
      ¬ ((dispense (refund_restore (dispense wS4 3).1 [wMv4]).1 3).1.batches =
        wS4.batches) := by decide

/-! ### Claim C5: cross-batch transfer order -/

/-- C5 counterexample: in `wS5` the backroom batch was received on day 1 and
the shelf batch on day 2; `fifo_transfer` consumes from the backroom batch
and leaves the active shelf batch untouched, while `dispense` on the same
state consumes from the shelf batch — so the transfer does not visit batches
in the dispensing order (shelf before backroom). -/
theorem claim_C5_counterexample :
    isActive wB5front = true ∧ wB5front.location = "front" ∧ wB5front ∈ wS5.batches ∧
      (fifo_transfer wS5 3 "somewhere").1.movements =
        [{ batch_id := 1, from_location := "back", to_location := "somewhere",
           quantity := 3, reason := "transfer" }] ∧
      wB5front ∈ (fifo_transfer wS5 3 "somewhere").1.batches ∧
      (dispense wS5 3).1.movements =
        [{ batch_id := 2, from_location := "front", to_location := "",
           quantity := 3, reason := "sale" }] := by decide

/-- C5 (amended): for every cross-batch FIFO transfer of a product, batches
are visited in ascending `date_received` order over all active batches,
with no location precedence — unlike dispensing. -/
theorem claim_C5_transfer_date_order (s : ProductState) :
    List.Sorted dateOrder (sortActiveByDate s) ∧
      List.Perm (sortActiveByDate s) (s.batches.filter isActive) :=
  ⟨List.sorted_insertionSort dateOrder _, List.perm_insertionSort dateOrder _⟩

/-! ### Claim C6: split invariant and logged deltas -/

/-- C6: the code contradicts the claim at its cited sources. Transferring 5
pieces from the 23-piece batch of `wS6` (2 boxes + 3 loose, 10 pieces/box),
`fifo_transfer` sizes the batch as boxes only (20), sets
`quantity = (20 - 5) / 10 = 1` and never touches `loose_pieces`, so the
total drops from 23 to 13 (a change of 10) while the logged movement says 5;
the refund reversal likewise adds the movement's 3 pieces to the box count,
changing the total by 30. -/
theorem claim_C6_code_bug :
    wB6.total_pieces wS6.med = 23 ∧
      (fifo_transfer wS6 5 "back").1.batches = [{ wB6 with quantity := 1 }] ∧
      ((fifo_transfer wS6 5 "back").1.batches.map (fun b => b.total_pieces wS6.med)) = [13] ∧
      (fifo_transfer wS6 5 "back").1.movements =
        [{ batch_id := 1, from_location := "front", to_location := "back",
           quantity := 5, reason := "transfer" }] ∧
      ¬ (23 - 13 = 5) ∧
      ((dispense wS4 3).1.batches.map (fun b => b.total_pieces wS4.med)) = [7] ∧
      ((refund_restore (dispense wS4 3).1 [wMv4]).1.batches.map
        (fun b => b.total_pieces wS4.med)) = [37] ∧
      ((refund_restore (dispense wS4 3).1 [wMv4]).1.movements.map
        (fun m => m.quantity)) = [3, 3] ∧
      ¬ (37 - 7 = 3) := by decide

/-! ### Claim C7: auto-promotion of the oldest backroom batch -/

lemma replaceFirstById_mem_of_ne (i : Nat) (f : StockBatch → StockBatch) :
    ∀ (bs : List StockBatch) (x : StockBatch), x ∈ bs → x.id ≠ i →
      x ∈ replaceFirstById i f bs := by
  intro bs
  induction bs with
  | nil => intro x hx _; simp at hx
  | cons b rest ih =>
    intro x hx hne
    rw [replaceFirstById]
    by_cases hid : b.id = i
    · rw [if_pos hid]
      rcases List.mem_cons.1 hx with h | h
      · subst h; exact absurd hid hne
      · exact List.mem_cons_of_mem _ h
    · rw [if_neg hid]
      rcases List.mem_cons.1 hx with h | h
      · subst h; exact List.mem_cons_self _ _
      · exact List.mem_cons_of_mem _ (ih x h hne)

lemma replaceFirstById_mem_self (i : Nat) (f : StockBatch → StockBatch) :
    ∀ (bs : List StockBatch) (x : StockBatch), (bs.map (fun b => b.id)).Nodup →
      x ∈ bs → x.id = i → f x ∈ replaceFirstById i f bs := by
  intro bs
  induction bs with
  | nil => intro x _ hx _; simp at hx
  | cons b rest ih =>
    intro x hnd hx hid
    simp only [List.map_cons, List.nodup_cons] at hnd
    rw [replaceFirstById]
    rcases List.mem_cons.1 hx with h | h
    · subst h
      rw [if_pos hid]
      exact List.mem_cons_self _ _
    · by_cases hb : b.id = i
      · exfalso
        apply hnd.1
        have hxid : x.id ∈ rest.map (fun b => b.id) := List.mem_map_of_mem _ h
        rwa [hid, ← hb] at hxid
      · rw [if_neg hb]
        exact List.mem_cons_of_mem _ (ih x hnd.2 h hid)

lemma dispense_consume_ids_perm (s : ProductState) (N : Nat) :
    List.Perm ((dispense_consume s N).1.map (fun b => b.id))
      (s.batches.map (fun b => b.id)) := by
  unfold dispense_consume
  dsimp only
  rw [List.map_append, consumeBatches_ids]
  have h1 : List.Perm ((sortActiveBatches s).map (fun b => b.id))
      ((s.batches.filter isActive).map (fun b => b.id)) :=
    (sortActiveBatches_perm s).map _
  have h2 : List.Perm
      ((s.batches.filter isActive).map (fun b => b.id) ++
        (s.batches.filter (fun b => !(isActive b))).map (fun b => b.id))
      (s.batches.map (fun b => b.id)) := by
    rw [← List.map_append]
    exact (List.filter_append_perm isActive s.batches).map _
  exact (h1.append_right _).trans h2

/-- C7: whenever no active shelf batch remains after the consumption phase
of a dispense but an active backroom batch exists, the oldest-received
active backroom batch is moved to the shelf in its entirety, and a
`transfer` movement (from back, to front) is logged for its full piece
count. -/
theorem claim_C7_auto_promotion (s : ProductState) (N : Nat)
    (hnd : (s.batches.map (fun b => b.id)).Nodup)
    (hfront : ((dispense_consume s N).1.any
      (fun b => isActive b && b.location == "front")) = false)
    (hback : ∃ b ∈ (dispense_consume s N).1, isActive b = true ∧ b.location = "back") :
    ∃ b0 ∈ (dispense_consume s N).1, isActive b0 = true ∧ b0.location = "back" ∧
      (∀ b' ∈ (dispense_consume s N).1, isActive b' = true → b'.location = "back" →
        b0.date_received ≤ b'.date_received) ∧
      { b0 with location := "front" } ∈ (dispense s N).1.batches ∧
      (dispense s N).1.movements = s.movements ++ (dispense_consume s N).2.1 ++
        [{ batch_id := b0.id, from_location := "back", to_location := "front",
           quantity := b0.total_pieces s.med, reason := "transfer" }] := by
  obtain ⟨bw, hbwmem, hbwact, hbwloc⟩ := hback
  have hbwf : bw ∈ (dispense_consume s N).1.filter
      (fun b => isActive b && b.location == "back") :=
    List.mem_filter_of_mem hbwmem (by simp [hbwact, hbwloc])
  have hsperm : List.Perm
      (List.insertionSort dateOrder ((dispense_consume s N).1.filter
        (fun b => isActive b && b.location == "back")))
      ((dispense_consume s N).1.filter (fun b => isActive b && b.location == "back")) :=
    List.perm_insertionSort dateOrder _
  have hssort : List.Sorted dateOrder
      (List.insertionSort dateOrder ((dispense_consume s N).1.filter
        (fun b => isActive b && b.location == "back"))) :=
    List.sorted_insertionSort dateOrder _
  have hbws : bw ∈ List.insertionSort dateOrder ((dispense_consume s N).1.filter
      (fun b => isActive b && b.location == "back")) := hsperm.mem_iff.2 hbwf
  cases hS : List.insertionSort dateOrder ((dispense_consume s N).1.filter
      (fun b => isActive b && b.location == "back")) with
  | nil => rw [hS] at hbws; simp at hbws
  | cons b0 tl =>
    rw [hS] at hsperm hssort
    have hb0f : b0 ∈ (dispense_consume s N).1.filter
        (fun b => isActive b && b.location == "back") := hsperm.mem_iff.1 (by simp)
    have hb0mem : b0 ∈ (dispense_consume s N).1 := List.mem_of_mem_filter hb0f
    have hb0p := List.of_mem_filter hb0f
    rw [Bool.and_eq_true, beq_iff_eq] at hb0p
    have hold : oldestBackBatch (dispense_consume s N).1 = some b0 := by
      unfold oldestBackBatch
      rw [hS]
      rfl
    have hcond : ¬ (((dispense_consume s N).1.any
        (fun b => isActive b && b.location == "front")) = true) := by
      rw [hfront]
      simp
    have hAP : auto_promote s.med (dispense_consume s N).1 =
        (replaceFirstById b0.id (fun b => { b with location := "front" })
          (dispense_consume s N).1,
          [{ batch_id := b0.id, from_location := "back", to_location := "front",
             quantity := b0.total_pieces s.med, reason := "transfer" }]) := by
      unfold auto_promote
      rw [if_neg hcond, hold]
    have hnd1 : ((dispense_consume s N).1.map (fun b => b.id)).Nodup :=
      (dispense_consume_ids_perm s N).nodup_iff.2 hnd
    refine ⟨b0, hb0mem, hb0p.1, hb0p.2, ?_, ?_, ?_⟩
    · intro b' hb'mem hb'act hb'loc
      have hb'f : b' ∈ (dispense_consume s N).1.filter
          (fun b => isActive b && b.location == "back") :=
        List.mem_filter_of_mem hb'mem (by simp [hb'act, hb'loc])
      have hb's : b' ∈ b0 :: tl := hsperm.mem_iff.2 hb'f
      rcases List.mem_cons.1 hb's with h | h
      · subst h; exact le_refl _
      · exact List.rel_of_sorted_cons hssort b' h
    · show _ ∈ (auto_promote s.med (dispense_consume s N).1).1
      rw [hAP]
      exact replaceFirstById_mem_self b0.id _ _ b0 hnd1 hb0mem rfl
    · show s.movements ++ (dispense_consume s N).2.1 ++
          (auto_promote s.med (dispense_consume s N).1).2 = _
      rw [hAP]

/-- C7 witness: dispensing the single shelf piece of `wS7` empties the
shelf, and the backroom batch (4 pieces) is promoted in its entirety. -/
theorem claim_C7_witness :
    ∃ b0 ∈ (dispense_consume wS7 1).1, isActive b0 = true ∧ b0.location = "back" ∧
      (∀ b' ∈ (dispense_consume wS7 1).1, isActive b' = true → b'.location = "back" →
        b0.date_received ≤ b'.date_received) ∧
      { b0 with location := "front" } ∈ (dispense wS7 1).1.batches ∧
      (dispense wS7 1).1.movements = wS7.movements ++ (dispense_consume wS7 1).2.1 ++
        [{ batch_id := b0.id, from_location := "back", to_location := "front",
           quantity := b0.total_pieces wS7.med, reason := "transfer" }] :=
  claim_C7_auto_promotion wS7 1 (by decide) (by decide) (by decide)

/-! ### Claim C8: sale arithmetic -/

/-- C8: `apply_discount` sets `total_amount` to the sum of the line totals,
resolves the rate from the assigned policy only when it is active,
computes `discount_amount = total * rate / 100` and
`final_amount = total - discount`, and is idempotent; `finalize_payment`
then computes `change = max 0 (cash - final)`. On the concrete sale with
lines of 10 and 5 pieces at 2.00 and an active 20% discount: subtotal 30,
discount 6, final 24, and change 6 on cash 30. -/
theorem claim_C8_sale_arithmetic (s : Sale) (cash : Rat)
    (h : 0 ≤ saleEffectiveRate s) :
    (s.apply_discount).total_amount = (s.line_items.map (fun l => l.line_total)).sum ∧
      (s.apply_discount).discount_rate = saleEffectiveRate s ∧
      (s.apply_discount).discount_amount =
        (s.apply_discount).total_amount * (s.apply_discount).discount_rate / 100 ∧
      (s.apply_discount).final_amount =
        (s.apply_discount).total_amount - (s.apply_discount).discount_amount ∧
      (s.apply_discount).apply_discount = s.apply_discount ∧
      ((s.apply_discount).finalize_payment cash).change_amount =
        max 0 (cash - (s.apply_discount).final_amount) ∧
      ((wSale8d.apply_discount).total_amount = 30 ∧
        (wSale8d.apply_discount).discount_amount = 6 ∧
        (wSale8d.apply_discount).final_amount = 24 ∧
        ((wSale8d.apply_discount).finalize_payment 30).change_amount = 6) := by
  have hid : (s.apply_discount).apply_discount = s.apply_discount := rfl
  refine ⟨rfl, rfl, ?_, rfl, hid, ?_, ?_, ?_, ?_, ?_⟩
  · by_cases hr : 0 < saleEffectiveRate s
    · simp [Sale.apply_discount, hr]
    · have h0 : saleEffectiveRate s = 0 := le_antisymm (not_lt.1 hr) h
      simp [Sale.apply_discount, hr, h0]
  · unfold Sale.finalize_payment
    rw [show (if (s.apply_discount).final_amount = 0
        then (s.apply_discount).apply_discount else s.apply_discount) = s.apply_discount by
      by_cases hf : (s.apply_discount).final_amount = 0
      · rw [if_pos hf, hid]
      · rw [if_neg hf]]
    show (if (s.apply_discount).final_amount ≤ cash
        then cash - (s.apply_discount).final_amount else 0) = _
    rcases le_or_lt (s.apply_discount).final_amount cash with hle | hlt
    · rw [if_pos hle, max_eq_right (sub_nonneg.2 hle)]
    · rw [if_neg (not_le.2 hlt), max_eq_left (sub_nonpos.2 (le_of_lt hlt))]
  · norm_num [wSale8d, wSale8, Sale.apply_discount, saleEffectiveRate, SaleLineItem.saveLine]
  · norm_num [wSale8d, wSale8, Sale.apply_discount, saleEffectiveRate, SaleLineItem.saveLine]
  · norm_num [wSale8d, wSale8, Sale.apply_discount, saleEffectiveRate, SaleLineItem.saveLine]
  · norm_num [wSale8d, wSale8, Sale.apply_discount, Sale.finalize_payment,
      saleEffectiveRate, SaleLineItem.saveLine]

/-- C8 witness: the theorem applied to the undiscounted two-line sale with
cash 0 (its effective rate is 0). -/
theorem claim_C8_witness :
    (wSale8.apply_discount).total_amount =
        (wSale8.line_items.map (fun l => l.line_total)).sum ∧
      (wSale8.apply_discount).discount_rate = saleEffectiveRate wSale8 ∧
      (wSale8.apply_discount).discount_amount =
        (wSale8.apply_discount).total_amount * (wSale8.apply_discount).discount_rate / 100 ∧
      (wSale8.apply_discount).final_amount =
        (wSale8.apply_discount).total_amount - (wSale8.apply_discount).discount_amount ∧
      (wSale8.apply_discount).apply_discount = wSale8.apply_discount ∧
      ((wSale8.apply_discount).finalize_payment 0).change_amount =
        max 0 (0 - (wSale8.apply_discount).final_amount) ∧
      ((wSale8d.apply_discount).total_amount = 30 ∧
        (wSale8d.apply_discount).discount_amount = 6 ∧
        (wSale8d.apply_discount).final_amount = 24 ∧
        ((wSale8d.apply_discount).finalize_payment 30).change_amount = 6) :=
  claim_C8_sale_arithmetic wSale8 0 (le_refl 0)

/-! ### Claim C9: the expiry sweep -/

/-- C9 counterexample: the batch of `wS9` holds 5 loose pieces
(`total_pieces = 5 > 0`) and its expiry date (10) has passed by day 20, yet
the sweep leaves the state completely unchanged — the batch is neither
zeroed, nor logged, nor deleted, because the code gates on the full-box
count `quantity > 0` instead of `total_pieces > 0`. -/
theorem claim_C9_counterexample :
    wB9.expiry_date ≤ 20 ∧ 0 < wB9.total_pieces wS9.med ∧ wB9.is_deleted = false ∧
      wB9 ∈ wS9.batches ∧ process_all_expired_batches wS9 20 = wS9 := by decide

/-- C9 (amended): for every run of the expiry sweep, every non-deleted
batch whose `expiry_date` is on or before today and whose full-box count is
positive has its box count zeroed (loose pieces retained), receives exactly
one `expired` movement whose quantity is the box count (not the piece
count), and is soft-deleted; batches whose box count is zero are skipped
even when loose pieces remain, and the operation returns no count. -/
theorem claim_C9_expiry_sweep (s : ProductState) (today : Nat) (b : StockBatch)
    (hb : b ∈ s.batches) (hd : b.is_deleted = false) (he : b.expiry_date ≤ today)
    (hq : 0 < b.quantity) :
    ({ b with quantity := 0, is_deleted := true } ∈
        (process_all_expired_batches s today).batches) ∧
      (({ batch_id := b.id, from_location := b.location, to_location := "",
          quantity := b.quantity, reason := "expired" } : StockMovement) ∈
        (process_all_expired_batches s today).movements) ∧
      ((process_all_expired_batches s today).movements.filter
          (fun m => m.reason == "expired")).length =
        (s.movements.filter (fun m => m.reason == "expired")).length +
          (s.batches.filter (expireEligible today)).length ∧
      (∀ x ∈ s.batches, expireEligible today x = false →
        x ∈ (process_all_expired_batches s today).batches) := by
  have heli : expireEligible today b = true := by
    simp [expireEligible, hd, he, hq]
  refine ⟨?_, ?_, ?_, ?_⟩
  · have hstep : (if expireEligible today b then (mark_as_expired b).1 else b) =
        { b with quantity := 0, is_deleted := true } := by
      rw [if_pos heli]
      unfold mark_as_expired
      rw [if_pos hq]
    show _ ∈ s.batches.map (fun x => if expireEligible today x then (mark_as_expired x).1 else x)
    exact hstep ▸ List.mem_map_of_mem _ hb
  · show _ ∈ s.movements ++ (s.batches.filter (expireEligible today)).map
      (fun x => { batch_id := x.id, from_location := x.location, to_location := "",
                  quantity := x.quantity, reason := "expired" })
    exact List.mem_append_right _
      (List.mem_map_of_mem _ (List.mem_filter_of_mem hb heli))
  · show ((s.movements ++ (s.batches.filter (expireEligible today)).map
        (fun x => ({ batch_id := x.id, from_location := x.location, to_location := "",
                     quantity := x.quantity, reason := "expired" } : StockMovement))).filter
        (fun m => m.reason == "expired")).length = _
    have hall : ∀ m ∈ (s.batches.filter (expireEligible today)).map
        (fun x => ({ batch_id := x.id, from_location := x.location, to_location := "",
                     quantity := x.quantity, reason := "expired" } : StockMovement)),
        (m.reason == "expired") = true := by
      intro m hm
      obtain ⟨x, _, rfl⟩ := List.mem_map.1 hm
      rfl
    rw [List.filter_append, List.length_append, List.filter_eq_self.2 hall, List.length_map]
  · intro x hx hinel
    have hstep : (if expireEligible today x then (mark_as_expired x).1 else x) = x := by
      rw [if_neg (by rw [hinel]; simp)]
    show _ ∈ s.batches.map (fun y => if expireEligible today y then (mark_as_expired y).1 else y)
    exact hstep ▸ List.mem_map_of_mem _ hx

/-- C9 witness: sweeping `wS9e` (2 boxes + 3 loose, expired) on day 20. -/
theorem claim_C9_witness :
    ({ wB9e with quantity := 0, is_deleted := true } ∈
        (process_all_expired_batches wS9e 20).batches) ∧
      (({ batch_id := wB9e.id, from_location := wB9e.location, to_location := "",
          quantity := wB9e.quantity, reason := "expired" } : StockMovement) ∈
        (process_all_expired_batches wS9e 20).movements) ∧
      ((process_all_expired_batches wS9e 20).movements.filter
          (fun m => m.reason == "expired")).length =
        (wS9e.movements.filter (fun m => m.reason == "expired")).length +
          (wS9e.batches.filter (expireEligible 20)).length ∧
      (∀ x ∈ wS9e.batches, expireEligible 20 x = false →
        x ∈ (process_all_expired_batches wS9e 20).batches) :=
  claim_C9_expiry_sweep wS9e 20 wB9e (by decide) (by decide) (by decide) (by decide)

/-! ### Claim C10: batch recall -/

lemma head?_eq_some_mem {l : List StockBatch} {a : StockBatch} (h : l.head? = some a) :
    a ∈ l := by
  cases l with
  | nil => simp at h
  | cons c tl =>
    simp at h
    rw [← h]
    exact List.mem_cons_self _ _

lemma replaceFirstById_location_fields (i : Nat) (loc : String) :
    ∀ (bs : List StockBatch) (x : StockBatch), x ∈ bs →
      ∃ y ∈ replaceFirstById i (fun b => { b with location := loc }) bs,
        y.id = x.id ∧ y.quantity = x.quantity ∧ y.loose_pieces = x.loose_pieces ∧
        y.is_deleted = x.is_deleted ∧ y.is_recalled = x.is_recalled := by
  intro bs
  induction bs with
  | nil => intro x hx; simp at hx
  | cons b rest ih =>
    intro x hx
    rw [replaceFirstById]
    by_cases hid : b.id = i
    · rw [if_pos hid]
      rcases List.mem_cons.1 hx with h | h
      · subst h
        exact ⟨{ x with location := loc }, List.mem_cons_self _ _, rfl, rfl, rfl, rfl, rfl⟩
      · exact ⟨x, List.mem_cons_of_mem _ h, rfl, rfl, rfl, rfl, rfl⟩
    · rw [if_neg hid]
      rcases List.mem_cons.1 hx with h | h
      · subst h
        exact ⟨x, List.mem_cons_self _ _, rfl, rfl, rfl, rfl, rfl⟩
      · obtain ⟨y, hy, hp⟩ := ih x h
        exact ⟨y, List.mem_cons_of_mem _ hy, hp⟩

lemma auto_promote_recall_fields (med : Medicine) (bs : List StockBatch) (x : StockBatch)
    (hx : x ∈ bs) :
    ∃ y ∈ (auto_promote_recall med bs).1, y.id = x.id ∧ y.quantity = x.quantity ∧
      y.loose_pieces = x.loose_pieces ∧ y.is_deleted = x.is_deleted ∧
      y.is_recalled = x.is_recalled := by
  unfold auto_promote_recall
  by_cases h : bs.any (fun b => isActive b && b.location == "front") = true
  · rw [if_pos h]
    exact ⟨x, hx, rfl, rfl, rfl, rfl, rfl⟩
  · rw [if_neg h]
    cases hfind : oldestBackBatch bs with
    | none => exact ⟨x, hx, rfl, rfl, rfl, rfl, rfl⟩
    | some b0 => exact replaceFirstById_location_fields b0.id "front" bs x hx

lemma recalled_mem_dispense (s' : ProductState) (N : Nat) (x : StockBatch)
    (hnd : (s'.batches.map (fun y => y.id)).Nodup) (hx : x ∈ s'.batches)
    (hrec : x.is_recalled = true) : x ∈ (dispense s' N).1.batches := by
  have hinact : isActive x = false := by simp [isActive, hrec]
  have hxf : x ∈ s'.batches.filter (fun b => !(isActive b)) :=
    List.mem_filter_of_mem hx (by rw [hinact]; rfl)
  have hx1 : x ∈ (dispense_consume s' N).1 := List.mem_append_right _ hxf
  show x ∈ (auto_promote s'.med (dispense_consume s' N).1).1
  unfold auto_promote
  by_cases h : ((dispense_consume s' N).1.any
      (fun b => isActive b && b.location == "front")) = true
  · rw [if_pos h]
    exact hx1
  · rw [if_neg h]
    cases hfind : oldestBackBatch (dispense_consume s' N).1 with
    | none => exact hx1
    | some b0 =>
      have hb0s : b0 ∈ List.insertionSort dateOrder ((dispense_consume s' N).1.filter
          (fun b => isActive b && b.location == "back")) := by
        unfold oldestBackBatch at hfind
        exact head?_eq_some_mem hfind
      have hb0 : b0 ∈ (dispense_consume s' N).1.filter
          (fun b => isActive b && b.location == "back") :=
        (List.perm_insertionSort dateOrder _).mem_iff.1 hb0s
      have hb0act : isActive b0 = true := by
        have hf := List.of_mem_filter hb0
        rw [Bool.and_eq_true] at hf
        exact hf.1
      have hb0mem : b0 ∈ (dispense_consume s' N).1 := List.mem_of_mem_filter hb0
      have hne : x.id ≠ b0.id := by
        intro he
        have hnd1 : ((dispense_consume s' N).1.map (fun y => y.id)).Nodup :=
          (dispense_consume_ids_perm s' N).nodup_iff.2 hnd
        have hxeq : x = b0 := List.inj_on_of_nodup_map hnd1 hx1 hb0mem he
        rw [hxeq] at hrec
        simp [isActive, hrec] at hb0act
      exact replaceFirstById_mem_of_ne _ _ _ x hx1 hne

lemma recallUpdate_id (rq : Nat) (x : StockBatch) : (recallUpdate rq x).id = x.id := by
  unfold recallUpdate
  dsimp only
  split <;> rfl

lemma recallUpdate_quantity (rq : Nat) (x : StockBatch) :
    (recallUpdate rq x).quantity = x.quantity - rq := by
  unfold recallUpdate
  by_cases h : x.quantity - rq = 0
  · simp [h]
  · simp [h]

lemma recallUpdate_loose (rq : Nat) (x : StockBatch) :
    (recallUpdate rq x).loose_pieces = x.loose_pieces := by
  unfold recallUpdate
  dsimp only
  split <;> rfl

lemma recallUpdate_is_deleted (rq : Nat) (x : StockBatch) :
    (recallUpdate rq x).is_deleted = x.is_deleted := by
  unfold recallUpdate
  dsimp only
  split <;> rfl

lemma recallUpdate_is_recalled_of_zero (rq : Nat) (x : StockBatch)
    (h : x.quantity - rq = 0) : (recallUpdate rq x).is_recalled = true := by
  unfold recallUpdate
  rw [if_pos h]

lemma auto_promote_recall_no_recall_moves (med : Medicine) (bs : List StockBatch) :
    ((auto_promote_recall med bs).2).filter (fun m => m.reason == "recall") = [] := by
  unfold auto_promote_recall
  by_cases h : bs.any (fun b => isActive b && b.location == "front") = true
  · rw [if_pos h]
    rfl
  · rw [if_neg h]
    cases oldestBackBatch bs with
    | none => rfl
    | some b0 => rfl

/-- C10: recalling more containers than the batch's full-box count fails
with no mutation; otherwise the requested containers' pieces are removed
(the batch's piece total drops by `containers * pieces_per_box`) and exactly
one `recall` movement is logged; whenever the recalled piece amount meets or
exceeds the batch total, the batch is marked recalled but not deleted; and
recalled batches are excluded from all future dispensing selection (they
pass through `dispense` untouched). -/
theorem claim_C10_recall (s : ProductState) (pk rq : Nat) (b : StockBatch)
    (hfind : (s.batches.filter (fun x => !x.is_deleted)).find? (fun x => x.id == pk) = some b)
    (hnd : (s.batches.map (fun x => x.id)).Nodup) :
    (b.quantity < rq → batch_recall s pk rq = (s, none)) ∧
      (0 < rq → rq ≤ b.quantity →
        (batch_recall s pk rq).2 = some (rq * s.med.packs_per_box * s.med.units_per_pack) ∧
        (∃ b' ∈ (batch_recall s pk rq).1.batches, b'.id = b.id ∧
          b'.quantity = b.quantity - rq ∧ b'.loose_pieces = b.loose_pieces ∧
          b'.is_deleted = false ∧
          b'.total_pieces s.med = b.total_pieces s.med - rq * pieces_per_box s.med ∧
          (rq = b.quantity → b'.is_recalled = true) ∧
          (b.total_pieces s.med ≤ rq * s.med.packs_per_box * s.med.units_per_pack →
            b'.is_recalled = true)) ∧
        ((batch_recall s pk rq).1.movements.filter (fun m => m.reason == "recall")).length =
          (s.movements.filter (fun m => m.reason == "recall")).length + 1 ∧
        ({ batch_id := b.id, from_location := b.location, to_location := "",
           quantity := rq * s.med.packs_per_box * s.med.units_per_pack,
           reason := "recall" } : StockMovement) ∈ (batch_recall s pk rq).1.movements) ∧
      (∀ (s' : ProductState) (N : Nat) (x : StockBatch),
        (s'.batches.map (fun y => y.id)).Nodup → x ∈ s'.batches → x.is_recalled = true →
        x ∈ (dispense s' N).1.batches) := by
  have hbmem : b ∈ s.batches := List.mem_of_mem_filter (List.mem_of_find?_eq_some hfind)
  have hbdel : b.is_deleted = false := by
    have h := List.of_mem_filter (List.mem_of_find?_eq_some hfind)
    simpa using h
  refine ⟨?_, ?_, fun s' N x => recalled_mem_dispense s' N x⟩
  · intro hlt
    have hrq0 : ¬ (rq = 0) := by omega
    unfold batch_recall
    rw [hfind]
    dsimp only
    rw [if_neg hrq0, if_pos hlt]
  · intro hpos hle
    have hrq0 : ¬ (rq = 0) := by omega
    have hnlt : ¬ (b.quantity < rq) := not_lt.2 hle
    unfold batch_recall
    rw [hfind]
    dsimp only
    rw [if_neg hrq0, if_neg hnlt]
    dsimp only
    refine ⟨rfl, ?_, ?_, ?_⟩
    · have hupd : recallUpdate rq b ∈
          replaceFirstById b.id (recallUpdate rq) s.batches :=
        replaceFirstById_mem_self b.id _ s.batches b hnd hbmem rfl
      obtain ⟨y, hy, hid, hq, hl, hdel, hrec⟩ :=
        auto_promote_recall_fields s.med _ (recallUpdate rq b) hupd
      have hppc_pos : 0 < pieces_per_box s.med := by
        have h1 : 0 < orOne s.med.packs_per_box := by unfold orOne; split <;> omega
        have h2 : 0 < orOne s.med.units_per_pack := by unfold orOne; split <;> omega
        exact Nat.mul_pos h1 h2
      refine ⟨y, hy, ?_, ?_, ?_, ?_, ?_, ?_, ?_⟩
      · rw [hid, recallUpdate_id]
      · rw [hq, recallUpdate_quantity]
      · rw [hl, recallUpdate_loose]
      · rw [hdel, recallUpdate_is_deleted, hbdel]
      · unfold StockBatch.total_pieces
        rw [hq, recallUpdate_quantity, hl, recallUpdate_loose]
        have h1 : (b.quantity - rq) * pieces_per_box s.med =
            b.quantity * pieces_per_box s.med - rq * pieces_per_box s.med :=
          Nat.sub_mul _ _ _
        have h2 : rq * pieces_per_box s.med ≤ b.quantity * pieces_per_box s.med :=
          Nat.mul_le_mul_right _ hle
        omega
      · intro heq
        rw [hrec, recallUpdate_is_recalled_of_zero rq b (by omega)]
      · intro hP
        unfold StockBatch.total_pieces at hP
        by_cases hz : s.med.packs_per_box = 0 ∨ s.med.units_per_pack = 0
        · exfalso
          have hP0 : rq * s.med.packs_per_box * s.med.units_per_pack = 0 := by
            rcases hz with h | h <;> simp [h]
          rw [hP0] at hP
          have hq0 : b.quantity * pieces_per_box s.med = 0 := by omega
          rcases Nat.mul_eq_zero.1 hq0 with h | h
          · omega
          · omega
        · push_neg at hz
          have hpe : pieces_per_box s.med =
              s.med.packs_per_box * s.med.units_per_pack := by
            unfold pieces_per_box orOne
            rw [if_neg hz.1, if_neg hz.2]
          have hassoc : rq * s.med.packs_per_box * s.med.units_per_pack =
              rq * (s.med.packs_per_box * s.med.units_per_pack) := Nat.mul_assoc _ _ _
          rw [hassoc, ← hpe] at hP
          have h2 : rq * pieces_per_box s.med ≤ b.quantity * pieces_per_box s.med :=
            Nat.mul_le_mul_right _ hle
          have hmeq : rq * pieces_per_box s.med = b.quantity * pieces_per_box s.med := by
            omega
          have hrqq : rq = b.quantity := Nat.eq_of_mul_eq_mul_right hppc_pos hmeq
          rw [hrec, recallUpdate_is_recalled_of_zero rq b (by omega)]
    · rw [List.filter_append, List.filter_append, auto_promote_recall_no_recall_moves,
        List.length_append, List.length_append]
      have hone : (List.filter (fun m => m.reason == "recall")
          [({ batch_id := b.id, from_location := b.location, to_location := "",
              quantity := rq * s.med.packs_per_box * s.med.units_per_pack,
              reason := "recall" } : StockMovement)]) =
          [({ batch_id := b.id, from_location := b.location, to_location := "",
              quantity := rq * s.med.packs_per_box * s.med.units_per_pack,
              reason := "recall" } : StockMovement)] := rfl
      rw [hone]
      simp
    · exact List.mem_append_left _
        (List.mem_append_right _ (List.mem_cons_self _ _))

/-- C10 witness: recalling 2 of the 4 containers of `wB10` (10 pieces per
box, 2 loose pieces). -/
theorem claim_C10_witness :
    (wB10.quantity < 2 → batch_recall wS10 1 2 = (wS10, none)) ∧
      (0 < 2 → 2 ≤ wB10.quantity →
        (batch_recall wS10 1 2).2 =
          some (2 * wS10.med.packs_per_box * wS10.med.units_per_pack) ∧
        (∃ b' ∈ (batch_recall wS10 1 2).1.batches, b'.id = wB10.id ∧
          b'.quantity = wB10.quantity - 2 ∧ b'.loose_pieces = wB10.loose_pieces ∧
          b'.is_deleted = false ∧
          b'.total_pieces wS10.med =
            wB10.total_pieces wS10.med - 2 * pieces_per_box wS10.med ∧
          (2 = wB10.quantity → b'.is_recalled = true) ∧
          (wB10.total_pieces wS10.med ≤
              2 * wS10.med.packs_per_box * wS10.med.units_per_pack →
            b'.is_recalled = true)) ∧
        ((batch_recall wS10 1 2).1.movements.filter
            (fun m => m.reason == "recall")).length =
          (wS10.movements.filter (fun m => m.reason == "recall")).length + 1 ∧
        ({ batch_id := wB10.id, from_location := wB10.location, to_location := "",
           quantity := 2 * wS10.med.packs_per_box * wS10.med.units_per_pack,
           reason := "recall" } : StockMovement) ∈ (batch_recall wS10 1 2).1.movements) ∧
      (∀ (s' : ProductState) (N : Nat) (x : StockBatch),
        (s'.batches.map (fun y => y.id)).Nodup → x ∈ s'.batches → x.is_recalled = true →
        x ∈ (dispense s' N).1.batches) :=
  claim_C10_recall wS10 1 2 wB10 (by decide) (by decide)
